import Mathlib

/-!
# LOMan server (`app.js`): a shallow embedding

`app.js` is a Node.js script: it creates an HTTP server with one request
handler, starts listening on a constant port, and registers a `SIGINT` handler
that closes the server and exits from the close callback.

The functions of the script are embedded as programs of a small monad `JS` (state
passing over the process state `Runtime`, with the three ways a JavaScript
statement sequence can end).  The host APIs the script calls (`console.log`,
`res.writeHead`, `res.end`, `server.listen`, `server.close`, `process.on`,
`process.exit`) are primitives of that monad which record the call in the
observable trace and update the process state the way Node documents it.
Callbacks handed to the host are referred to by name (`Callback`), and the event
loop (`step`) calls them back when the corresponding host event happens.
-/

namespace LOMan

/-! ## Values and the process state -/

/-- A JavaScript error value; only its message is kept. -/
structure JSError where
  message : String
deriving DecidableEq, Repr

/-- The part of `http.IncomingMessage` that a handler can look at. -/
structure IncomingMessage where
  method : String
  url : String
  headers : List (String × String)
deriving DecidableEq, Repr

/-- The four function literals of `app.js`, in source order. -/
inductive Callback
  | requestHandler
  | listenCallback
  | sigintHandler
  | closeCallback
deriving DecidableEq, Repr

/-- The observable calls a run makes, in the order they are made. -/
inductive Effect
  | log (line : String)
  | writeHead (status : Nat) (headers : List (String × String))
  | resEnd (body : String)
  | exit (code : Int)
deriving DecidableEq, Repr

/-- Whether the process is alive, and if not how it ended: through
`process.exit(code)`, through an uncaught exception, or by an unhandled
signal. -/
inductive Status
  | alive
  | exited (code : Int)
  | crashed (e : JSError)
  | killed
deriving DecidableEq, Repr

/-- The process state: the trace, the server object and the registered
listeners. -/
structure Runtime where
  /-- Calls made so far, oldest first. -/
  out : List Effect
  /-- The `request` listener given to `http.createServer`. -/
  requestListener : Option Callback
  /-- The address given to `server.listen`: host (if any) and port. -/
  address : Option (Option String × Nat)
  /-- The listening socket is open: the server accepts connections. -/
  handle : Bool
  /-- The one-time `listening` listener, until it has been called. -/
  listeningListener : Option Callback
  /-- Connections accepted so far. -/
  connections : Nat
  /-- The one-time `close` listeners, in registration order, each with the
  error argument it will be called with. -/
  closeListeners : List (Callback × Option JSError)
  /-- The `SIGINT` listeners of `process`, in registration order. -/
  sigintListeners : List Callback
  status : Status
deriving DecidableEq, Repr

/-- The state of a fresh process, before the script runs. -/
def Runtime.init : Runtime :=
  { out := [], requestListener := none, address := none, handle := false,
    listeningListener := none, connections := 0, closeListeners := [],
    sigintListeners := [], status := Status.alive }

/-! ## The monad of JavaScript statement sequences -/

/-- How a statement sequence ends: it returns, it throws, or the process has
exited underneath it (`process.exit` does not return). -/
inductive Completion (α : Type)
  | normal (a : α)
  | thrown (e : JSError)
  | exited
deriving DecidableEq, Repr

/-- A piece of JavaScript acting on the process state. -/
def JS (α : Type) : Type := Runtime → Completion α × Runtime

/-- A statement that returns `a` and does nothing. -/
def JS.pure {α : Type} (a : α) : JS α := fun s => (Completion.normal a, s)

/-- Sequencing: the rest runs only when the first part returned normally. -/
def JS.bind {α β : Type} (m : JS α) (k : α → JS β) : JS β := fun s =>
  match m s with
  | (Completion.normal a, s1) => k a s1
  | (Completion.thrown e, s1) => (Completion.thrown e, s1)
  | (Completion.exited, s1) => (Completion.exited, s1)

instance : Monad JS where
  pure := JS.pure
  bind := JS.bind

/-- The statement `throw e`. -/
def JS.throw {α : Type} (e : JSError) : JS α := fun s => (Completion.thrown e, s)

/-- Record one call in the trace. -/
def emit (e : Effect) : JS Unit := fun s =>
  (Completion.normal (), { s with out := s.out ++ [e] })

/-! ## Host primitives -/

/-- The global `console` object, as far as the script uses it. -/
structure Console where
  log : String → JS Unit

/-- The console of Node: `console.log(line)` prints the line and returns normally
(the global console of Node does not report write errors to the caller). -/
def nodeConsole : Console := { log := fun line => emit (Effect.log line) }

/-- The console of Node over a standard output whose writes can fail:
`stdout line` is `none` when the line is written and `some e` when the write
fails with `e`.  The global console is created with `ignoreErrors` on, so
`console.log(line)` drops a write error and returns normally either way; a line
whose write failed is not printed. -/
def consoleOn (stdout : String → Option JSError) : Console :=
  { log := fun line =>
      match stdout line with
      | none => emit (Effect.log line)
      | some _ => JS.pure () }

/-- The call `res.writeHead(status, headers)`. -/
def writeHead (status : Nat) (headers : List (String × String)) : JS Unit :=
  emit (Effect.writeHead status headers)

/-- The call `res.end(body)`. -/
def resEnd (body : String) : JS Unit := emit (Effect.resEnd body)

/-- The call `http.createServer(listener)`: a server that is not listening yet,
with `listener` on its `request` event. -/
def createServer (listener : Callback) : JS Unit := fun s =>
  (Completion.normal (), { s with requestListener := some listener })

/-- The error Node raises when `listen` is called on a listening server. -/
def errAlreadyListen : JSError := { message := "ERR_SERVER_ALREADY_LISTEN" }

/-- The error Node passes to a close callback when the server was not open. -/
def errNotRunning : JSError := { message := "ERR_SERVER_NOT_RUNNING" }

/-- The error of reading a property of `undefined`. -/
def errUndefined : JSError := { message := "TypeError" }

/-- The call `server.listen(port, cb)` (no host argument: host `none`): opens
the listening socket and registers `cb` for the `listening` event.  Throws
when the server is listening already. -/
def serverListen (host : Option String) (port : Nat) (cb : Callback) : JS Unit := fun s =>
  if s.handle then (Completion.thrown errAlreadyListen, s)
  else (Completion.normal (),
    { s with address := some (host, port), handle := true, listeningListener := some cb })

/-- The call `server.close(cb)`.  With the listening socket open: `cb` is put
on the `close` event and the socket is closed, so no new connection is
accepted.  With no listening socket: `cb` is put on the `close` event wrapped
so that it is called with `ERR_SERVER_NOT_RUNNING`. -/
def serverClose (cb : Callback) : JS Unit := fun s =>
  if s.handle then
    (Completion.normal (),
      { s with closeListeners := s.closeListeners ++ [(cb, none)], handle := false })
  else
    (Completion.normal (),
      { s with closeListeners := s.closeListeners ++ [(cb, some errNotRunning)] })

/-- The call `process.on(SIGINT, cb)`. -/
def processOnSigint (cb : Callback) : JS Unit := fun s =>
  (Completion.normal (), { s with sigintListeners := s.sigintListeners ++ [cb] })

/-- The call `process.exit(code)`: the process ends with `code`; control does
not come back. -/
def processExit (code : Int) : JS Unit := fun s =>
  (Completion.exited, { s with out := s.out ++ [Effect.exit code], status := Status.exited code })

/-! ## The script -/

/-- Source line 5: `const port = 3000;`. -/
def port : Nat := 3000

/-- The response body of source line 15. -/
def greeting : String :=
  "Hello from LOMan server! Press Ctrl+C in the PowerShell window to stop the server.\n"

/-- Source lines 8-16, the function given to `http.createServer`. -/
def requestHandler (console : Console) (req : IncomingMessage) : JS Unit := do
  console.log ("Received request for " ++ req.url)
  writeHead 200 [("Content-Type", "text/plain")]
  resEnd greeting

/-- Source lines 19-22, the function given to `server.listen`. -/
def listenCallback (console : Console) : JS Unit := do
  console.log ("Server running at http://localhost:" ++ toString port ++ "/")
  console.log "Press Ctrl+C in the PowerShell window to stop the server."

/-- Source lines 27-30, the function given to `server.close`.  It declares no
parameter, so the error argument the host passes is not looked at. -/
def closeCallback (console : Console) (_err : Option JSError) : JS Unit := do
  console.log "Server closed"
  processExit 0

/-- Source lines 25-31, the function given to `process.on(SIGINT, ...)`. -/
def sigintHandler (console : Console) : JS Unit := do
  console.log "SIGINT received - Server shutting down"
  serverClose Callback.closeCallback

/-- The top level of the script, source lines 1-33. -/
def main (console : Console) : JS Unit := do
  createServer Callback.requestHandler
  serverListen none port Callback.listenCallback
  processOnSigint Callback.sigintHandler
  console.log "Node.js server starting..."

/-! ## The event loop -/

/-- Calling a callback the way the host does: with the request for a
`request` listener and with the error (if any) for a `close` listener.  A
function ignores the arguments it does not declare; `req.url` on a missing
request is a `TypeError`. -/
def invoke (console : Console) :
    Callback → Option IncomingMessage → Option JSError → JS Unit
  | Callback.requestHandler, some req, _ => requestHandler console req
  | Callback.requestHandler, none, _ => JS.throw errUndefined
  | Callback.listenCallback, _, _ => listenCallback console
  | Callback.sigintHandler, _, _ => sigintHandler console
  | Callback.closeCallback, _, err => closeCallback console err

/-- Run one callback to completion from the event loop: an exception nobody
catches crashes the process. -/
def exec (m : JS Unit) (s : Runtime) : Runtime :=
  match m s with
  | (Completion.normal _, s1) => s1
  | (Completion.thrown e, s1) => { s1 with status := Status.crashed e }
  | (Completion.exited, s1) => s1

/-- Emitting an event: its listeners are called in registration order, for as
long as the process is alive. -/
def emitTo (console : Console) :
    List (Callback × Option IncomingMessage × Option JSError) → Runtime → Runtime
  | [], s => s
  | (cb, req, err) :: rest, s =>
    if s.status = Status.alive then
      emitTo console rest (exec (invoke console cb req err) s)
    else s

/-- What the outside world can do to the process between two callbacks. -/
inductive Event
  /-- The bound server emits `listening`. -/
  | listening
  /-- A client connects to the listening socket. -/
  | connection
  /-- A request has been parsed on an accepted connection. -/
  | request (req : IncomingMessage)
  /-- The interrupt signal is delivered. -/
  | sigint
  /-- The closed server emits `close`.  When that happens is decided by the
  host (after the listening socket is closed and its connections have ended),
  not by the script. -/
  | closed
deriving DecidableEq, Repr

/-- One turn of the event loop.  A process that has ended does nothing more. -/
def step (console : Console) (s : Runtime) (ev : Event) : Runtime :=
  if s.status = Status.alive then
    match ev with
    | Event.listening =>
      if s.handle then
        match s.listeningListener with
        | some cb => emitTo console [(cb, none, none)] { s with listeningListener := none }
        | none => s
      else s
    | Event.connection =>
      if s.handle then { s with connections := s.connections + 1 } else s
    | Event.request req =>
      if s.connections = 0 then s
      else
        match s.requestListener with
        | some cb => emitTo console [(cb, some req, none)] s
        | none => s
    | Event.sigint =>
      match s.sigintListeners with
      | [] => { s with status := Status.killed }
      | cb :: cbs => emitTo console ((cb :: cbs).map fun c => (c, none, none)) s
    | Event.closed =>
      if s.handle then s
      else
        emitTo console (s.closeListeners.map fun l => (l.1, none, l.2))
          { s with closeListeners := [] }
  else s

/-- The process after the top level of the script has run. -/
def boot (console : Console) : Runtime := exec (main console) Runtime.init

/-- The process after a sequence of events. -/
def run (console : Console) (s : Runtime) (evs : List Event) : Runtime :=
  evs.foldl (step console) s

/-! ## Observations -/

/-- The lines printed, in order. -/
def logLines : List Effect → List String
  | [] => []
  | Effect.log line :: rest => line :: logLines rest
  | _ :: rest => logLines rest

/-- The calls made on response objects, in order. -/
def responseCalls : List Effect → List Effect
  | [] => []
  | Effect.writeHead st hs :: rest => Effect.writeHead st hs :: responseCalls rest
  | Effect.resEnd body :: rest => Effect.resEnd body :: responseCalls rest
  | _ :: rest => responseCalls rest

/-- The three states of the shutdown coordinator. -/
inductive Phase
  | Running
  | Stopping
  | Stopped
deriving DecidableEq, Repr

/-- The coordinator state a process state stands for: `Running` while the
process is alive and the listening socket is open, `Stopping` while it is
alive with the socket closed, `Stopped` once the process has ended. -/
def phase (s : Runtime) : Phase :=
  match s.status with
  | Status.alive => if s.handle then Phase.Running else Phase.Stopping
  | _ => Phase.Stopped

/-- A standard output whose pipe is broken: every write fails with `EPIPE`. -/
def brokenStdout : String → Option JSError := fun _ => some { message := "write EPIPE" }

/-- The request `GET /`. -/
def getRoot : IncomingMessage := { method := "GET", url := "/", headers := [] }

/-- The request `GET /anything/else`. -/
def getElse : IncomingMessage := { method := "GET", url := "/anything/else", headers := [] }

/-! ## The states a run can reach -/

/-- The process after the script has started and the events `evs` have
happened, with the console of Node. -/
def reach (evs : List Event) : Runtime := run nodeConsole (boot nodeConsole) evs

/-- The line the interrupt handler prints (source line 26). -/
def sigLog : Effect := Effect.log "SIGINT received - Server shutting down"

/-- The line the close callback prints (source line 28). -/
def closedLog : Effect := Effect.log "Server closed"

/-- No call of `process.exit` occurs in the trace `l`. -/
def noExit (l : List Effect) : Prop := ∀ c, Effect.exit c ∉ l

/-- The registrations made by the top level of the script are in place. -/
structure Wired (s : Runtime) : Prop where
  req : s.requestListener = some Callback.requestHandler
  addr : s.address = some (none, 3000)
  sig : s.sigintListeners = [Callback.sigintHandler]
  lis : s.listeningListener = some Callback.listenCallback ∨ s.listeningListener = none

/-- Alive and listening; nothing has asked for a close yet. -/
def IsRunning (s : Runtime) : Prop :=
  s.status = Status.alive ∧ s.handle = true ∧ s.closeListeners = [] ∧ noExit s.out

/-- Alive with the listening socket closed: the close callback registered by
the first interrupt is first in line, and the interrupt line has been
printed. -/
def IsStopping (s : Runtime) : Prop :=
  s.status = Status.alive ∧ s.handle = false ∧
  (∃ rest, s.closeListeners = (Callback.closeCallback, none) :: rest ∧
    ∀ l ∈ rest, l.1 = Callback.closeCallback) ∧
  ∃ pre mid, s.out = pre ++ sigLog :: mid ∧ noExit pre ∧ noExit mid

/-- Exited with code 0: the trace ends with the close line and the exit, the
only exit in it, and the interrupt line comes before. -/
def IsStopped (s : Runtime) : Prop :=
  s.status = Status.exited 0 ∧ s.handle = false ∧
  ∃ pre mid, s.out = pre ++ sigLog :: (mid ++ [closedLog, Effect.exit 0]) ∧
    noExit pre ∧ noExit mid

/-- The invariant of the runs of the script. -/
def Inv (s : Runtime) : Prop := Wired s ∧ (IsRunning s ∨ IsStopping s ∨ IsStopped s)

/-! ## Lemmas -/

/-- Sequencing in `JS` is `JS.bind`. -/
theorem bind_apply {α β : Type} (m : JS α) (k : α → JS β) (s : Runtime) :
    (m >>= k) s = JS.bind m k s := rfl

/-- The request handler with the console of Node, as one state update. -/
theorem requestHandler_node (req : IncomingMessage) (s : Runtime) :
    requestHandler nodeConsole req s =
      (Completion.normal (), { s with out := s.out ++
        [Effect.log ("Received request for " ++ req.url),
         Effect.writeHead 200 [("Content-Type", "text/plain")],
         Effect.resEnd greeting] }) := by
  simp [requestHandler, nodeConsole, writeHead, resEnd, emit, bind_apply, JS.bind]

/-- The listen callback with the console of Node, as one state update. -/
theorem listenCallback_node (s : Runtime) :
    listenCallback nodeConsole s =
      (Completion.normal (), { s with out := s.out ++
        [Effect.log "Server running at http://localhost:3000/",
         Effect.log "Press Ctrl+C in the PowerShell window to stop the server."] }) := by
  have h : "Server running at http://localhost:" ++ toString port ++ "/"
      = "Server running at http://localhost:3000/" := by decide
  simp [listenCallback, nodeConsole, emit, bind_apply, JS.bind, h]

/-- The close callback with the console of Node, as one state update. -/
theorem closeCallback_node (err : Option JSError) (s : Runtime) :
    closeCallback nodeConsole err s =
      (Completion.exited, { s with out := s.out ++
        [Effect.log "Server closed", Effect.exit 0], status := Status.exited 0 }) := by
  simp [closeCallback, nodeConsole, processExit, emit, bind_apply, JS.bind]

/-- The interrupt handler with the console of Node, as one state update. -/
theorem sigintHandler_node (s : Runtime) :
    sigintHandler nodeConsole s =
      (Completion.normal (),
        if s.handle then
          { s with out := s.out ++ [Effect.log "SIGINT received - Server shutting down"],
                   closeListeners := s.closeListeners ++ [(Callback.closeCallback, none)],
                   handle := false }
        else
          { s with out := s.out ++ [Effect.log "SIGINT received - Server shutting down"],
                   closeListeners :=
                     s.closeListeners ++ [(Callback.closeCallback, some errNotRunning)] }) := by
  cases h : s.handle <;>
    simp [sigintHandler, nodeConsole, serverClose, emit, bind_apply, JS.bind, h]

/-- A concatenation has no exit when neither part has one. -/
theorem noExit_append (a b : List Effect) : noExit (a ++ b) ↔ noExit a ∧ noExit b := by
  simp only [noExit, List.mem_append, not_or]
  exact ⟨fun h => ⟨fun c => (h c).1, fun c => (h c).2⟩, fun h c => ⟨h.1 c, h.2 c⟩⟩

/-- Listeners are not called once the process has ended. -/
theorem emitTo_ended (console : Console)
    (l : List (Callback × Option IncomingMessage × Option JSError)) (s : Runtime)
    (h : s.status ≠ Status.alive) : emitTo console l s = s := by
  cases l with
  | nil => rfl
  | cons a rest => obtain ⟨cb, rq, er⟩ := a; simp [emitTo, h]

/-- A process that has ended ignores every event. -/
theorem step_ended (console : Console) (s : Runtime) (ev : Event)
    (h : s.status ≠ Status.alive) : step console s ev = s := by
  simp [step, h]

/-- The `listening` event on a running server. -/
theorem step_running_listening (s : Runtime) (hw : Wired s) (h : IsRunning s) :
    step nodeConsole s Event.listening =
      match s.listeningListener with
      | some _ => { s with listeningListener := none, out := s.out ++
          [Effect.log "Server running at http://localhost:3000/",
           Effect.log "Press Ctrl+C in the PowerShell window to stop the server."] }
      | none => s := by
  obtain ⟨ha, hh, -, -⟩ := h
  rcases hw.lis with h1 | h1 <;>
    simp [step, ha, hh, h1, emitTo, exec, invoke, listenCallback_node]

/-- A request on a live process. -/
theorem step_request (s : Runtime) (req : IncomingMessage) (hw : Wired s)
    (ha : s.status = Status.alive) :
    step nodeConsole s (Event.request req) =
      if s.connections = 0 then s else
        { s with out := s.out ++
          [Effect.log ("Received request for " ++ req.url),
           Effect.writeHead 200 [("Content-Type", "text/plain")],
           Effect.resEnd greeting] } := by
  by_cases hc : s.connections = 0 <;>
    simp [step, ha, hc, hw.req, emitTo, exec, invoke, requestHandler_node]

/-- The first interrupt: the handler prints its line and closes the socket. -/
theorem step_running_sigint (s : Runtime) (hw : Wired s) (h : IsRunning s) :
    step nodeConsole s Event.sigint =
      { s with out := s.out ++ [sigLog],
               closeListeners := [(Callback.closeCallback, none)], handle := false } := by
  obtain ⟨ha, hh, hc, -⟩ := h
  simp [step, ha, hh, hc, hw.sig, emitTo, exec, invoke, sigintHandler_node, sigLog]

/-- A later interrupt: the line is printed again and a second close listener is
queued behind the first. -/
theorem step_stopping_sigint (s : Runtime) (hw : Wired s) (h : IsStopping s) :
    step nodeConsole s Event.sigint =
      { s with out := s.out ++ [sigLog],
               closeListeners :=
                 s.closeListeners ++ [(Callback.closeCallback, some errNotRunning)] } := by
  obtain ⟨ha, hh, -, -⟩ := h
  simp [step, ha, hh, hw.sig, emitTo, exec, invoke, sigintHandler_node, sigLog]

/-- The `close` event of a stopping server runs the first close callback, which
exits. -/
theorem step_stopping_closed (s : Runtime) (h : IsStopping s) :
    step nodeConsole s Event.closed =
      { s with out := s.out ++ [closedLog, Effect.exit 0], closeListeners := [],
               status := Status.exited 0 } := by
  obtain ⟨ha, hh, ⟨rest, hc, -⟩, -⟩ := h
  simp [step, ha, hh, hc, emitTo, exec, invoke, closeCallback_node, closedLog]
  apply emitTo_ended
  simp

/-- The three calls of the request handler contain no exit. -/
theorem noExit_logs3 (a : String) (st : Nat) (hs : List (String × String)) (b : String) :
    noExit [Effect.log a, Effect.writeHead st hs, Effect.resEnd b] := by
  intro c; simp

/-- The invariant holds after startup. -/
theorem inv_boot : Inv (boot nodeConsole) := by
  refine ⟨⟨rfl, rfl, rfl, Or.inl rfl⟩, Or.inl ⟨rfl, rfl, rfl, ?_⟩⟩
  intro c
  have e : (boot nodeConsole).out = [Effect.log "Node.js server starting..."] := rfl
  rw [e]; simp

/-- Every turn of the event loop keeps the invariant. -/
theorem inv_step (s : Runtime) (ev : Event) (h : Inv s) : Inv (step nodeConsole s ev) := by
  obtain ⟨hw, hr | hs | hd⟩ := h
  · -- Running
    have hr0 := hr
    obtain ⟨ha, hh, hc, hx⟩ := hr
    cases ev with
    | listening =>
      rw [step_running_listening s hw hr0]
      rcases hw.lis with h1 | h1
      · rw [h1]
        refine ⟨⟨hw.req, hw.addr, hw.sig, Or.inr rfl⟩, Or.inl ⟨ha, hh, hc, ?_⟩⟩
        show noExit (s.out ++ _)
        rw [noExit_append]
        exact ⟨hx, fun c => by simp⟩
      · rw [h1]; exact ⟨hw, Or.inl hr0⟩
    | connection =>
      have e : step nodeConsole s Event.connection
          = { s with connections := s.connections + 1 } := by simp [step, ha, hh]
      rw [e]
      exact ⟨⟨hw.req, hw.addr, hw.sig, hw.lis⟩, Or.inl ⟨ha, hh, hc, hx⟩⟩
    | request req =>
      rw [step_request s req hw ha]
      split
      · exact ⟨hw, Or.inl hr0⟩
      · refine ⟨⟨hw.req, hw.addr, hw.sig, hw.lis⟩, Or.inl ⟨ha, hh, hc, ?_⟩⟩
        show noExit (s.out ++ _)
        rw [noExit_append]
        exact ⟨hx, noExit_logs3 _ _ _ _⟩
    | sigint =>
      rw [step_running_sigint s hw hr0]
      refine ⟨⟨hw.req, hw.addr, hw.sig, hw.lis⟩, Or.inr (Or.inl ⟨ha, rfl, ⟨[], rfl, ?_⟩, ?_⟩)⟩
      · intro l hl; cases hl
      · exact ⟨s.out, [], rfl, hx, fun c => by simp⟩
    | closed =>
      have e : step nodeConsole s Event.closed = s := by simp [step, ha, hh]
      rw [e]; exact ⟨hw, Or.inl hr0⟩
  · -- Stopping
    have hs0 := hs
    obtain ⟨ha, hh, ⟨rest, hc, hrest⟩, ⟨pre, mid, ho, hpre, hmid⟩⟩ := hs
    cases ev with
    | listening =>
      have e : step nodeConsole s Event.listening = s := by simp [step, ha, hh]
      rw [e]; exact ⟨hw, Or.inr (Or.inl hs0)⟩
    | connection =>
      have e : step nodeConsole s Event.connection = s := by simp [step, ha, hh]
      rw [e]; exact ⟨hw, Or.inr (Or.inl hs0)⟩
    | request req =>
      rw [step_request s req hw ha]
      split
      · exact ⟨hw, Or.inr (Or.inl hs0)⟩
      · refine ⟨⟨hw.req, hw.addr, hw.sig, hw.lis⟩,
          Or.inr (Or.inl ⟨ha, hh, ⟨rest, hc, hrest⟩,
            ⟨pre, mid ++ [Effect.log ("Received request for " ++ req.url),
              Effect.writeHead 200 [("Content-Type", "text/plain")],
              Effect.resEnd greeting], ?_, hpre, ?_⟩⟩)⟩
        · show s.out ++ _ = _
          rw [ho, List.append_assoc, List.cons_append]
        · rw [noExit_append]; exact ⟨hmid, noExit_logs3 _ _ _ _⟩
    | sigint =>
      rw [step_stopping_sigint s hw hs0]
      refine ⟨⟨hw.req, hw.addr, hw.sig, hw.lis⟩,
        Or.inr (Or.inl ⟨ha, hh, ⟨rest ++ [(Callback.closeCallback, some errNotRunning)], ?_, ?_⟩,
          ⟨pre, mid ++ [sigLog], ?_, hpre, ?_⟩⟩)⟩
      · show s.closeListeners ++ _ = _
        rw [hc, List.cons_append]
      · intro l hl
        rcases List.mem_append.mp hl with h1 | h1
        · exact hrest l h1
        · rw [List.mem_singleton.mp h1]
      · show s.out ++ _ = _
        rw [ho, List.append_assoc, List.cons_append]
      · rw [noExit_append]; exact ⟨hmid, fun c => by simp [sigLog]⟩
    | closed =>
      rw [step_stopping_closed s hs0]
      refine ⟨⟨hw.req, hw.addr, hw.sig, hw.lis⟩,
        Or.inr (Or.inr ⟨rfl, hh, ⟨pre, mid, ?_, hpre, hmid⟩⟩)⟩
      show s.out ++ _ = _
      rw [ho, List.append_assoc, List.cons_append]
  · -- Stopped
    have e : step nodeConsole s ev = s := step_ended _ _ _ (by rw [hd.1]; simp)
    rw [e]; exact ⟨hw, Or.inr (Or.inr hd)⟩

/-- Running two event sequences one after the other. -/
theorem run_append (console : Console) (s : Runtime) (xs ys : List Event) :
    run console s (xs ++ ys) = run console (run console s xs) ys := by
  simp [run, List.foldl_append]

/-- Running a sequence that starts with `x`. -/
theorem run_cons (console : Console) (s : Runtime) (x : Event) (xs : List Event) :
    run console s (x :: xs) = run console (step console s x) xs := rfl

/-- Every run keeps the invariant. -/
theorem inv_run (s : Runtime) (evs : List Event) (h : Inv s) : Inv (run nodeConsole s evs) := by
  induction evs generalizing s with
  | nil => exact h
  | cons ev rest ih => rw [run_cons]; exact ih _ (inv_step s ev h)

/-- The invariant holds in every state the script can reach. -/
theorem inv_reach (evs : List Event) : Inv (reach evs) :=
  inv_run _ _ inv_boot

/-- The printed lines of a concatenation. -/
theorem logLines_append (a b : List Effect) : logLines (a ++ b) = logLines a ++ logLines b := by
  induction a with
  | nil => rfl
  | cons e rest ih => cases e <;> simp [logLines, ih]

/-- The response calls of a concatenation. -/
theorem responseCalls_append (a b : List Effect) :
    responseCalls (a ++ b) = responseCalls a ++ responseCalls b := by
  induction a with
  | nil => rfl
  | cons e rest ih => cases e <;> simp [responseCalls, ih]

/-- A running server accepts a connection. -/
theorem step_running_connection (s : Runtime) (h : IsRunning s) :
    step nodeConsole s Event.connection = { s with connections := s.connections + 1 } := by
  simp [step, h.1, h.2.1]

/-- A running server has nothing to emit on `close`. -/
theorem step_running_closed (s : Runtime) (h : IsRunning s) :
    step nodeConsole s Event.closed = s := by
  simp [step, h.1, h.2.1]

/-- A closed server does not emit `listening`. -/
theorem step_stopping_listening (s : Runtime) (h : IsStopping s) :
    step nodeConsole s Event.listening = s := by
  simp [step, h.1, h.2.1]

/-- With the listening socket closed no connection is accepted. -/
theorem step_closed_connection (console : Console) (s : Runtime) (h : s.handle = false) :
    step console s Event.connection = s := by
  simp [step, h]

/-- A turn of the event loop leaves a live process alive, unless it is the `close` event of a stopping server. -/
theorem step_alive_or_closed (s : Runtime) (ev : Event) (h : Inv s)
    (ha : s.status = Status.alive) :
    (step nodeConsole s ev).status = Status.alive ∨ (ev = Event.closed ∧ IsStopping s) := by
  obtain ⟨hw, hr | hs | hd⟩ := h
  · left
    cases ev with
    | listening =>
      rw [step_running_listening s hw hr]
      rcases hw.lis with h1 | h1 <;> rw [h1] <;> exact ha
    | connection => rw [step_running_connection s hr]; exact ha
    | request req => rw [step_request s req hw ha]; split <;> exact ha
    | sigint => rw [step_running_sigint s hw hr]; exact ha
    | closed => rw [step_running_closed s hr]; exact ha
  · cases ev with
    | listening => left; rw [step_stopping_listening s hs]; exact ha
    | connection => left; rw [step_closed_connection _ s hs.2.1]; exact ha
    | request req => left; rw [step_request s req hw ha]; split <;> exact ha
    | sigint => left; rw [step_stopping_sigint s hw hs]; exact ha
    | closed => exact Or.inr ⟨rfl, hs⟩
  · rw [hd.1] at ha; cases ha

/-- After an interrupt a live process is stopping. -/
theorem step_sigint_stopping (s : Runtime) (h : Inv s) (ha : s.status = Status.alive) :
    IsStopping (step nodeConsole s Event.sigint) := by
  have hi := inv_step s Event.sigint h
  have hst : (step nodeConsole s Event.sigint).status = Status.alive := by
    rcases step_alive_or_closed s Event.sigint h ha with h1 | h1
    · exact h1
    · cases h1.1
  have hhd : (step nodeConsole s Event.sigint).handle = false := by
    obtain ⟨hw, hr | hs | hd⟩ := h
    · rw [step_running_sigint s hw hr]
    · rw [step_stopping_sigint s hw hs]; exact hs.2.1
    · rw [hd.1] at ha; cases ha
  rcases hi.2 with h1 | h1 | h1
  · rw [h1.2.1] at hhd; cases hhd
  · exact h1
  · rw [h1.1] at hst; cases hst

/-- No event reopens the listening socket. -/
theorem handle_false_step (s : Runtime) (ev : Event) (h : Inv s) (hh : s.handle = false) :
    (step nodeConsole s ev).handle = false := by
  obtain ⟨hw, hr | hs | hd⟩ := h
  · rw [hr.2.1] at hh; cases hh
  · cases ev with
    | listening => rw [step_stopping_listening s hs]; exact hh
    | connection => rw [step_closed_connection _ s hh]; exact hh
    | request req => rw [step_request s req hw hs.1]; split <;> exact hh
    | sigint => rw [step_stopping_sigint s hw hs]; exact hh
    | closed => rw [step_stopping_closed s hs]; exact hh
  · rw [step_ended _ _ _ (by rw [hd.1]; simp)]; exact hh

/-- No run reopens the listening socket. -/
theorem handle_false_run (s : Runtime) (evs : List Event) (h : Inv s) (hh : s.handle = false) :
    (run nodeConsole s evs).handle = false := by
  induction evs generalizing s with
  | nil => exact hh
  | cons ev rest ih =>
    rw [run_cons]; exact ih _ (inv_step s ev h) (handle_false_step s ev h hh)

/-- After an interrupt the listening socket is closed. -/
theorem handle_false_after_sigint (s : Runtime) (h : Inv s) :
    (step nodeConsole s Event.sigint).handle = false := by
  by_cases ha : s.status = Status.alive
  · exact (step_sigint_stopping s h ha).2.1
  · rw [step_ended _ _ _ ha]
    obtain ⟨-, hr | hs | hd⟩ := h
    · exact absurd hr.1 ha
    · exact absurd hs.1 ha
    · exact hd.2.1

/-- A turn of the event loop only appends to the trace. -/
theorem step_out_grows (s : Runtime) (ev : Event) (h : Inv s) :
    ∃ t, (step nodeConsole s ev).out = s.out ++ t := by
  obtain ⟨hw, hr | hs | hd⟩ := h
  · cases ev with
    | listening =>
      rw [step_running_listening s hw hr]
      rcases hw.lis with h1 | h1 <;> rw [h1]
      · exact ⟨_, rfl⟩
      · exact ⟨[], by simp⟩
    | connection => rw [step_running_connection s hr]; exact ⟨[], by simp⟩
    | request req =>
      rw [step_request s req hw hr.1]; split
      · exact ⟨[], by simp⟩
      · exact ⟨_, rfl⟩
    | sigint => rw [step_running_sigint s hw hr]; exact ⟨_, rfl⟩
    | closed => rw [step_running_closed s hr]; exact ⟨[], by simp⟩
  · cases ev with
    | listening => rw [step_stopping_listening s hs]; exact ⟨[], by simp⟩
    | connection => rw [step_closed_connection _ s hs.2.1]; exact ⟨[], by simp⟩
    | request req =>
      rw [step_request s req hw hs.1]; split
      · exact ⟨[], by simp⟩
      · exact ⟨_, rfl⟩
    | sigint => rw [step_stopping_sigint s hw hs]; exact ⟨_, rfl⟩
    | closed => rw [step_stopping_closed s hs]; exact ⟨_, rfl⟩
  · rw [step_ended _ _ _ (by rw [hd.1]; simp)]; exact ⟨[], by simp⟩

/-- A run only appends to the trace. -/
theorem run_out_grows (s : Runtime) (evs : List Event) (h : Inv s) :
    ∃ t, (run nodeConsole s evs).out = s.out ++ t := by
  induction evs generalizing s with
  | nil => exact ⟨[], by simp [run]⟩
  | cons ev rest ih =>
    obtain ⟨t1, h1⟩ := step_out_grows s ev h
    obtain ⟨t2, h2⟩ := ih _ (inv_step s ev h)
    exact ⟨t1 ++ t2, by rw [run_cons, h2, h1, List.append_assoc]⟩

/-- A trace with no exit has no `exit 0`. -/
theorem noExit_count (l : List Effect) (h : noExit l) : l.count (Effect.exit 0) = 0 :=
  List.count_eq_zero.mpr (h 0)

/-- The process exits at most once. -/
theorem exit_count_le_one (s : Runtime) (h : Inv s) : s.out.count (Effect.exit 0) ≤ 1 := by
  obtain ⟨-, hr | hs | hd⟩ := h
  · rw [noExit_count _ hr.2.2.2]; exact Nat.zero_le _
  · obtain ⟨-, -, -, pre, mid, ho, hpre, hmid⟩ := hs
    rw [ho, List.count_append, noExit_count _ hpre, List.count_cons, noExit_count _ hmid]
    simp [sigLog]
  · obtain ⟨-, -, pre, mid, ho, hpre, hmid⟩ := hd
    rw [ho, List.count_append, noExit_count _ hpre, List.count_cons, List.count_append,
      noExit_count _ hmid]
    simp [sigLog, closedLog]

/-- Reaching through two event sequences. -/
theorem reach_append (xs ys : List Event) :
    reach (xs ++ ys) = run nodeConsole (reach xs) ys := run_append _ _ _ _

/-- A reachable process is alive or has exited with code 0. -/
theorem status_of_inv (s : Runtime) (h : Inv s) :
    s.status = Status.alive ∨ s.status = Status.exited 0 := by
  obtain ⟨-, hr | hs | hd⟩ := h
  · exact Or.inl hr.1
  · exact Or.inl hs.1
  · exact Or.inr hd.1

/-- An exit in a reachable trace has code 0 and the process has stopped. -/
theorem exit_mem_of_inv (s : Runtime) (h : Inv s) (c : Int) (hc : Effect.exit c ∈ s.out) :
    c = 0 ∧ IsStopped s := by
  obtain ⟨-, hr | hs | hd⟩ := h
  · exact absurd hc (hr.2.2.2 c)
  · obtain ⟨-, -, -, pre, mid, ho, hpre, hmid⟩ := hs
    rw [ho] at hc
    rcases List.mem_append.mp hc with h1 | h1
    · exact absurd h1 (hpre c)
    · rcases List.mem_cons.mp h1 with h2 | h2
      · cases h2
      · exact absurd h2 (hmid c)
  · refine ⟨?_, hd⟩
    obtain ⟨-, -, pre, mid, ho, hpre, hmid⟩ := hd
    rw [ho] at hc
    rcases List.mem_append.mp hc with h1 | h1
    · exact absurd h1 (hpre c)
    · rcases List.mem_cons.mp h1 with h2 | h2
      · cases h2
      · rcases List.mem_append.mp h2 with h3 | h3
        · exact absurd h3 (hmid c)
        · simp [closedLog] at h3; exact h3

/-- An interrupt followed by the `close` event ends a live process with code 0. -/
theorem run_sigint_closed (s : Runtime) (h : Inv s) (ha : s.status = Status.alive) :
    run nodeConsole s [Event.sigint, Event.closed] =
      { step nodeConsole s Event.sigint with
        out := s.out ++ [sigLog, closedLog, Effect.exit 0],
        closeListeners := [], status := Status.exited 0 } := by
  have hst := step_sigint_stopping s h ha
  have e : run nodeConsole s [Event.sigint, Event.closed]
      = step nodeConsole (step nodeConsole s Event.sigint) Event.closed := rfl
  rw [e, step_stopping_closed _ hst]
  have ho : (step nodeConsole s Event.sigint).out = s.out ++ [sigLog] := by
    obtain ⟨hw, hr | hs | hd⟩ := h
    · rw [step_running_sigint s hw hr]
    · rw [step_stopping_sigint s hw hs]
    · rw [hd.1] at ha; cases ha
  rw [ho]
  simp

/-- The request handler over any standard output, as one state update: the log
line is in the trace when its write succeeded. -/
theorem requestHandler_consoleOn (stdout : String → Option JSError) (req : IncomingMessage)
    (s : Runtime) :
    requestHandler (consoleOn stdout) req s =
      (Completion.normal (), { s with out := s.out ++
        (match stdout ("Received request for " ++ req.url) with
          | none => [Effect.log ("Received request for " ++ req.url)]
          | some _ => []) ++
        [Effect.writeHead 200 [("Content-Type", "text/plain")], Effect.resEnd greeting] }) := by
  cases h : stdout ("Received request for " ++ req.url) <;>
    simp [requestHandler, consoleOn, h, writeHead, resEnd, emit, bind_apply, JS.bind, JS.pure]

/-- A reachable state whose coordinator is `Stopping` is stopping. -/
theorem stopping_of_phase (s : Runtime) (h : Inv s) (hp : phase s = Phase.Stopping) :
    IsStopping s := by
  obtain ⟨-, hr | hs | hd⟩ := h
  · simp [phase, hr.1, hr.2.1] at hp
  · exact hs
  · simp [phase, hd.1] at hp

/-! ## The claims -/

/-- C1: for every request (any URL, method and headers) and every process state, the
request handler returns normally after exactly these calls: its log line, then
`res.writeHead(200, ...)` with the single header `Content-Type: text/plain`,
then `res.end` with the greeting, which ends with one newline; nothing else in
the state changes.  In every run, a request dispatched on an accepted
connection of the live process adds exactly these two response calls. -/
theorem requestHandler_fixed_response (req : IncomingMessage) (s : Runtime) :
    requestHandler nodeConsole req s =
      (Completion.normal (), { s with out := s.out ++
        [Effect.log ("Received request for " ++ req.url),
         Effect.writeHead 200 [("Content-Type", "text/plain")],
         Effect.resEnd
           "Hello from LOMan server! Press Ctrl+C in the PowerShell window to stop the server.\n"] }) ∧
    (∀ evs : List Event, (reach evs).status = Status.alive → 0 < (reach evs).connections →
      responseCalls (step nodeConsole (reach evs) (Event.request req)).out =
        responseCalls (reach evs).out ++
          [Effect.writeHead 200 [("Content-Type", "text/plain")],
           Effect.resEnd
             "Hello from LOMan server! Press Ctrl+C in the PowerShell window to stop the server.\n"]) := by
  refine ⟨requestHandler_node req s, ?_⟩
  intro evs ha hc
  rw [step_request _ req (inv_reach evs).1 ha, if_neg (Nat.pos_iff_ne_zero.mp hc)]
  show responseCalls ((reach evs).out ++ _) = _
  rw [responseCalls_append]
  rfl

theorem requestHandler_fixed_response_witness :
    ((reach [Event.connection]).status = Status.alive ∧ 0 < (reach [Event.connection]).connections) ∧
    responseCalls (step nodeConsole (reach [Event.connection]) (Event.request getRoot)).out =
      responseCalls (reach [Event.connection]).out ++
        [Effect.writeHead 200 [("Content-Type", "text/plain")],
         Effect.resEnd
           "Hello from LOMan server! Press Ctrl+C in the PowerShell window to stop the server.\n"] :=
  ⟨⟨by decide, by decide⟩,
    (requestHandler_fixed_response getRoot Runtime.init).2 [Event.connection]
      (by decide) (by decide)⟩

/-- C2: the response does not depend on the request.  For any two requests and any
state the handler completes the same way, makes the same response calls and
leaves the same state apart from the trace; `GET /anything/else` and `GET /`
get the same response calls while their log lines differ. -/
theorem response_independent_of_request (r1 r2 : IncomingMessage) (s : Runtime) :
    (requestHandler nodeConsole r1 s).1 = (requestHandler nodeConsole r2 s).1 ∧
    responseCalls (requestHandler nodeConsole r1 s).2.out =
      responseCalls (requestHandler nodeConsole r2 s).2.out ∧
    { (requestHandler nodeConsole r1 s).2 with out := [] } =
      { (requestHandler nodeConsole r2 s).2 with out := [] } ∧
    responseCalls (requestHandler nodeConsole getElse Runtime.init).2.out =
      responseCalls (requestHandler nodeConsole getRoot Runtime.init).2.out ∧
    logLines (requestHandler nodeConsole getElse Runtime.init).2.out ≠
      logLines (requestHandler nodeConsole getRoot Runtime.init).2.out := by
  refine ⟨?_, ?_, ?_, by decide, by decide⟩
  · rw [requestHandler_node, requestHandler_node]
  · rw [requestHandler_node, requestHandler_node]
    simp [responseCalls_append, responseCalls]
  · rw [requestHandler_node, requestHandler_node]

/-- C3: for every request the handler prints exactly one line, and that line is
`Received request for ` followed by `req.url`. -/
theorem requestHandler_logs_path (req : IncomingMessage) (s : Runtime) :
    logLines (requestHandler nodeConsole req s).2.out =
      logLines s.out ++ ["Received request for " ++ req.url] := by
  rw [requestHandler_node]
  simp [logLines_append, logLines]

/-- C4: a failure of the log call does not fail the response path.  For every
request and state, when the write of the request line to the standard output
fails, `console.log` prints nothing and returns normally (the failure is
swallowed, not propagated), and the handler returns normally having written
the 200 `text/plain` greeting response, leaving the process as alive as it
was.  Whatever the standard output does, the handler returns normally and
adds exactly the two response calls.  With every write failing, a whole run
through startup, a connection and `GET /` prints nothing, writes the response
and leaves the process alive. -/
theorem log_failure_swallowed (stdout : String → Option JSError) (req : IncomingMessage)
    (s : Runtime) (e : JSError) (h : stdout ("Received request for " ++ req.url) = some e) :
    (consoleOn stdout).log ("Received request for " ++ req.url) s = (Completion.normal (), s) ∧
    requestHandler (consoleOn stdout) req s =
      (Completion.normal (), { s with out := s.out ++
        [Effect.writeHead 200 [("Content-Type", "text/plain")],
         Effect.resEnd
           "Hello from LOMan server! Press Ctrl+C in the PowerShell window to stop the server.\n"] }) ∧
    (exec (requestHandler (consoleOn stdout) req) s).status = s.status ∧
    (∀ (out2 : String → Option JSError) (r : IncomingMessage) (t : Runtime),
      (requestHandler (consoleOn out2) r t).1 = Completion.normal () ∧
      responseCalls (requestHandler (consoleOn out2) r t).2.out =
        responseCalls t.out ++
          [Effect.writeHead 200 [("Content-Type", "text/plain")],
           Effect.resEnd
             "Hello from LOMan server! Press Ctrl+C in the PowerShell window to stop the server.\n"]) ∧
    (run (consoleOn brokenStdout) (boot (consoleOn brokenStdout))
        [Event.listening, Event.connection, Event.request getRoot]).out =
      [Effect.writeHead 200 [("Content-Type", "text/plain")],
       Effect.resEnd
         "Hello from LOMan server! Press Ctrl+C in the PowerShell window to stop the server.\n"] ∧
    (run (consoleOn brokenStdout) (boot (consoleOn brokenStdout))
        [Event.listening, Event.connection, Event.request getRoot]).status = Status.alive := by
  have hh : requestHandler (consoleOn stdout) req s =
      (Completion.normal (), { s with out := s.out ++
        [Effect.writeHead 200 [("Content-Type", "text/plain")], Effect.resEnd greeting] }) := by
    simp [requestHandler, consoleOn, h, writeHead, resEnd, emit, bind_apply, JS.bind, JS.pure]
  refine ⟨?_, hh, ?_, ?_, by decide, by decide⟩
  · simp [consoleOn, h, JS.pure]
  · simp [exec, hh]
  · intro out2 r t
    rw [requestHandler_consoleOn]
    constructor
    · rfl
    · cases out2 ("Received request for " ++ r.url) <;>
        simp [responseCalls_append, responseCalls, greeting]

theorem log_failure_swallowed_witness :
    brokenStdout ("Received request for " ++ getRoot.url) = some { message := "write EPIPE" } ∧
    requestHandler (consoleOn brokenStdout) getRoot Runtime.init =
      (Completion.normal (), { Runtime.init with out := Runtime.init.out ++
        [Effect.writeHead 200 [("Content-Type", "text/plain")],
         Effect.resEnd
           "Hello from LOMan server! Press Ctrl+C in the PowerShell window to stop the server.\n"] }) :=
  ⟨by decide,
    (log_failure_swallowed brokenStdout getRoot Runtime.init { message := "write EPIPE" }
      (by decide)).2.1⟩

/-- C6, counterexample: in the run `listening, sigint, sigint, closed` the second
`server.close` finds the server already closed, so its callback is queued to
be called with `ERR_SERVER_NOT_RUNNING`.  Nothing about that failure is
logged: after the failed close the only line printed is `Server closed`, by
the first callback, and the four lines of the run are the ones a shutdown
without any failure prints.  The process exits with code 0. -/
theorem failed_close_not_logged_example :
    (reach [Event.listening, Event.sigint, Event.sigint]).closeListeners =
      [(Callback.closeCallback, none), (Callback.closeCallback, some errNotRunning)] ∧
    (reach [Event.listening, Event.sigint, Event.sigint, Event.closed]).out =
      (reach [Event.listening, Event.sigint, Event.sigint]).out ++
        [Effect.log "Server closed", Effect.exit 0] ∧
    logLines (reach [Event.listening, Event.sigint, Event.sigint, Event.closed]).out =
      ["Node.js server starting...",
       "Server running at http://localhost:3000/",
       "Press Ctrl+C in the PowerShell window to stop the server.",
       "SIGINT received - Server shutting down",
       "SIGINT received - Server shutting down",
       "Server closed"] ∧
    (reach [Event.listening, Event.sigint, Event.sigint, Event.closed]).status =
      Status.exited 0 := by
  decide

/-- C6, as amended: a close that fails because the server is already closed is
not logged, and the process still exits.  In every run, an interrupt received
while stopping makes `server.close` queue its callback, to be called with
`ERR_SERVER_NOT_RUNNING`, behind the first one; the handler prints only its
usual interrupt line.  The `close` event that follows prints `Server closed`
and the process exits with code 0.  The `close` event of any reachable state
either does nothing or runs the close callback with no error, so the callback
never receives the error. -/
theorem failed_close_queued_not_logged (evs : List Event) :
    (phase (reach evs) = Phase.Stopping →
      serverClose Callback.closeCallback (reach evs) =
        (Completion.normal (), { reach evs with closeListeners :=
          (reach evs).closeListeners ++ [(Callback.closeCallback, some errNotRunning)] }) ∧
      step nodeConsole (reach evs) Event.sigint =
        { reach evs with
          out := (reach evs).out ++ [Effect.log "SIGINT received - Server shutting down"],
          closeListeners :=
            (reach evs).closeListeners ++ [(Callback.closeCallback, some errNotRunning)] } ∧
      (run nodeConsole (reach evs) [Event.sigint, Event.closed]).out =
        (reach evs).out ++ [Effect.log "SIGINT received - Server shutting down",
          Effect.log "Server closed", Effect.exit 0] ∧
      (run nodeConsole (reach evs) [Event.sigint, Event.closed]).status = Status.exited 0) ∧
    (step nodeConsole (reach evs) Event.closed = reach evs ∨
      step nodeConsole (reach evs) Event.closed =
        exec (closeCallback nodeConsole none) { reach evs with closeListeners := [] }) := by
  have hi := inv_reach evs
  generalize reach evs = s at hi
  constructor
  · intro hp
    have hs : IsStopping s := stopping_of_phase s hi hp
    refine ⟨?_, step_stopping_sigint s hi.1 hs, ?_, ?_⟩
    · simp [serverClose, hs.2.1]
    · rw [run_sigint_closed s hi hs.1]; rfl
    · rw [run_sigint_closed s hi hs.1]
  · obtain ⟨hw, hr | hs | hd⟩ := hi
    · exact Or.inl (step_running_closed s hr)
    · right
      rw [step_stopping_closed s hs]
      simp [exec, closeCallback_node, closedLog]
    · exact Or.inl (step_ended _ _ _ (by rw [hd.1]; simp))

theorem failed_close_queued_not_logged_witness :
    phase (reach [Event.listening, Event.sigint]) = Phase.Stopping ∧
    (run nodeConsole (reach [Event.listening, Event.sigint])
      [Event.sigint, Event.closed]).status = Status.exited 0 :=
  ⟨by decide,
    ((failed_close_queued_not_logged [Event.listening, Event.sigint]).1 (by decide)).2.2.2⟩

/-- C5: in every run the process is alive or has exited with code 0, and every
`process.exit` in the trace has argument 0.  The only event that ends a live
process is the `close` event of the server with its listening socket closed:
that turn runs the close callback, which prints `Server closed` and then
exits with 0.  An interrupt delivered to a live process closes the listening
socket with the close callback first in line and does not exit by itself; the
`close` event that follows ends the process with code 0. -/
theorem exit_only_from_close_callback (evs : List Event) :
    ((reach evs).status = Status.alive ∨ (reach evs).status = Status.exited 0) ∧
    (∀ code, Effect.exit code ∈ (reach evs).out → code = 0) ∧
    (∀ ev, (reach evs).status = Status.alive →
      (step nodeConsole (reach evs) ev).status ≠ Status.alive →
        ev = Event.closed ∧ (reach evs).handle = false ∧
        step nodeConsole (reach evs) ev =
          { reach evs with
            out := (reach evs).out ++ [Effect.log "Server closed", Effect.exit 0],
            closeListeners := [], status := Status.exited 0 }) ∧
    ((reach evs).status = Status.alive →
      (step nodeConsole (reach evs) Event.sigint).handle = false ∧
      (step nodeConsole (reach evs) Event.sigint).status = Status.alive ∧
      (step nodeConsole (reach evs) Event.sigint).closeListeners.head? =
        some (Callback.closeCallback, none) ∧
      (run nodeConsole (reach evs) [Event.sigint, Event.closed]).status = Status.exited 0 ∧
      (run nodeConsole (reach evs) [Event.sigint, Event.closed]).out =
        (reach evs).out ++ [Effect.log "SIGINT received - Server shutting down",
          Effect.log "Server closed", Effect.exit 0]) := by
  have hi := inv_reach evs
  refine ⟨status_of_inv _ hi, fun c hc => (exit_mem_of_inv _ hi c hc).1, ?_, ?_⟩
  · intro ev ha hne
    rcases step_alive_or_closed _ ev hi ha with h1 | ⟨h1, h2⟩
    · exact absurd h1 hne
    · subst h1
      exact ⟨rfl, h2.2.1, step_stopping_closed _ h2⟩
  · intro ha
    have hst := step_sigint_stopping _ hi ha
    refine ⟨hst.2.1, hst.1, ?_, ?_, ?_⟩
    · obtain ⟨rest, hc, -⟩ := hst.2.2.1
      rw [hc]; rfl
    · rw [run_sigint_closed _ hi ha]
    · rw [run_sigint_closed _ hi ha]; rfl

theorem exit_only_from_close_callback_witness :
    (reach [Event.listening]).status = Status.alive ∧
    (run nodeConsole (reach [Event.listening]) [Event.sigint, Event.closed]).status =
      Status.exited 0 :=
  ⟨by decide,
    ((exit_only_from_close_callback [Event.listening]).2.2.2 (by decide)).2.2.2.1⟩

/-- C8: in every run whose trace contains `process.exit(0)`, the trace ends with
the line `Server closed` and then the exit, the line
`SIGINT received - Server shutting down` was printed before them, and there is
no other exit in the trace. -/
theorem shutdown_lines_before_exit (evs : List Event)
    (h : Effect.exit 0 ∈ (reach evs).out) :
    ∃ pre mid, (reach evs).out =
        pre ++ Effect.log "SIGINT received - Server shutting down" ::
          (mid ++ [Effect.log "Server closed", Effect.exit 0]) ∧
      (∀ c, Effect.exit c ∉ pre) ∧ (∀ c, Effect.exit c ∉ mid) := by
  obtain ⟨-, -, -, pre, mid, ho, hpre, hmid⟩ := exit_mem_of_inv _ (inv_reach evs) 0 h
  exact ⟨pre, mid, ho, hpre, hmid⟩

theorem shutdown_lines_before_exit_witness :
    Effect.exit 0 ∈ (reach [Event.sigint, Event.closed]).out ∧
    ∃ pre mid, (reach [Event.sigint, Event.closed]).out =
        pre ++ Effect.log "SIGINT received - Server shutting down" ::
          (mid ++ [Effect.log "Server closed", Effect.exit 0]) ∧
      (∀ c, Effect.exit c ∉ pre) ∧ (∀ c, Effect.exit c ∉ mid) :=
  ⟨by decide, shutdown_lines_before_exit [Event.sigint, Event.closed] (by decide)⟩

/-- C7: the shutdown is one-shot.  In every state reached after an interrupt signal,
whatever came before and whatever comes after, the coordinator is not
`Running`: the listening socket is closed and a connection attempt changes
nothing.  A further interrupt in `Stopping` leaves the coordinator in
`Stopping`, with the first close callback still first in line (the handler
only queues a second one behind it), and the `close` event then still ends
the process with code 0.  Once `Stopped` no event changes the state, and the
process exits at most once. -/
theorem shutdown_one_shot (pre post : List Event) :
    phase (reach (pre ++ Event.sigint :: post)) ≠ Phase.Running ∧
    (reach (pre ++ Event.sigint :: post)).handle = false ∧
    step nodeConsole (reach (pre ++ Event.sigint :: post)) Event.connection =
      reach (pre ++ Event.sigint :: post) ∧
    (phase (reach (pre ++ Event.sigint :: post)) = Phase.Stopping →
      phase (step nodeConsole (reach (pre ++ Event.sigint :: post)) Event.sigint) =
        Phase.Stopping ∧
      (reach (pre ++ Event.sigint :: post)).closeListeners.head? =
        some (Callback.closeCallback, none) ∧
      (step nodeConsole (reach (pre ++ Event.sigint :: post)) Event.sigint).closeListeners =
        (reach (pre ++ Event.sigint :: post)).closeListeners ++
          [(Callback.closeCallback, some errNotRunning)] ∧
      (run nodeConsole (reach (pre ++ Event.sigint :: post))
        [Event.sigint, Event.closed]).status = Status.exited 0) ∧
    (phase (reach (pre ++ Event.sigint :: post)) = Phase.Stopped →
      ∀ ev, step nodeConsole (reach (pre ++ Event.sigint :: post)) ev =
        reach (pre ++ Event.sigint :: post)) ∧
    (reach (pre ++ Event.sigint :: post)).out.count (Effect.exit 0) ≤ 1 := by
  have hi := inv_reach (pre ++ Event.sigint :: post)
  have hh : (reach (pre ++ Event.sigint :: post)).handle = false := by
    rw [reach_append, run_cons]
    exact handle_false_run _ _ (inv_step _ _ (inv_reach pre))
      (handle_false_after_sigint _ (inv_reach pre))
  generalize reach (pre ++ Event.sigint :: post) = s at hi hh
  refine ⟨?_, hh, step_closed_connection _ s hh, ?_, ?_, exit_count_le_one s hi⟩
  · simp only [phase, hh]
    cases s.status <;> simp
  · intro hp
    have ha : s.status = Status.alive := by
      rcases status_of_inv s hi with h1 | h1
      · exact h1
      · simp [phase, h1] at hp
    have hs : IsStopping s := by
      obtain ⟨-, hr | hs | hd⟩ := hi
      · rw [hr.2.1] at hh; cases hh
      · exact hs
      · rw [hd.1] at ha; cases ha
    have hst := step_sigint_stopping s hi ha
    refine ⟨?_, ?_, ?_, ?_⟩
    · simp [phase, hst.1, hst.2.1]
    · obtain ⟨rest, hc, -⟩ := hs.2.2.1
      rw [hc]; rfl
    · rw [step_stopping_sigint s hi.1 hs]
    · rw [run_sigint_closed s hi ha]
  · intro hp ev
    apply step_ended
    intro ha
    simp [phase, ha, hh] at hp

theorem shutdown_one_shot_witness :
    phase (reach ([Event.listening] ++ Event.sigint :: [Event.connection])) = Phase.Stopping ∧
    phase (step nodeConsole (reach ([Event.listening] ++ Event.sigint :: [Event.connection]))
      Event.sigint) = Phase.Stopping :=
  ⟨by decide,
    ((shutdown_one_shot [Event.listening] [Event.connection]).2.2.2.1 (by decide)).1⟩

/-- C9: the port is the constant 3000.  The top level of the script, which takes no
input, creates the server, opens the listening socket on port 3000 with no
host, registers the two callbacks and prints the start line.  The address is
the same in every reachable state, and the `listening` event prints
`Server running at http://localhost:3000/`, so every run that starts with it
has that line in second place. -/
theorem listens_on_port_3000 (evs : List Event) :
    port = 3000 ∧
    main nodeConsole Runtime.init =
      (Completion.normal (),
        { Runtime.init with
          out := [Effect.log "Node.js server starting..."],
          requestListener := some Callback.requestHandler,
          address := some (none, 3000),
          handle := true,
          listeningListener := some Callback.listenCallback,
          sigintListeners := [Callback.sigintHandler] }) ∧
    (reach evs).address = some (none, 3000) ∧
    step nodeConsole (reach []) Event.listening =
      { reach [] with
        listeningListener := none,
        out := (reach []).out ++
          [Effect.log "Server running at http://localhost:3000/",
           Effect.log "Press Ctrl+C in the PowerShell window to stop the server."] } ∧
    (reach (Event.listening :: evs)).out.take 3 =
      [Effect.log "Node.js server starting...",
       Effect.log "Server running at http://localhost:3000/",
       Effect.log "Press Ctrl+C in the PowerShell window to stop the server."] := by
  refine ⟨rfl, by decide, (inv_reach evs).1.addr, by decide, ?_⟩
  obtain ⟨t, ht⟩ := run_out_grows (reach [Event.listening]) evs (inv_reach _)
  have e : reach (Event.listening :: evs) = run nodeConsole (reach [Event.listening]) evs := rfl
  have e2 : (reach [Event.listening]).out =
      [Effect.log "Node.js server starting...",
       Effect.log "Server running at http://localhost:3000/",
       Effect.log "Press Ctrl+C in the PowerShell window to stop the server."] := by decide
  rw [e, ht, e2]
  rfl

end LOMan
